import Mathlib

/-!
Verification of the point-set registration engine of `mne/coreg.py`:
voxel-grid decimation (`_decimate_points`), the parameter-to-matrix
conversion (`_trans_from_params`), the matched-point fitter
(`fit_matched_points`) and the head-frame construction
(`get_ras_to_neuromag_trans`).
-/

namespace Coreg

/-! ### Voxel decimation (`_decimate_points`, coreg.py lines 160-210)

The decimation code is embedded over rational coordinates: the only
irrational quantity in the source is the Euclidean distance computed by
`scipy.spatial.distance.cdist`, which is immediately consumed by
`np.argmin`; since the square root is strictly monotone, the argmin of
the distances equals the argmin of the squared distances, so the
embedding ranks candidate points by squared distance and stays in `ℚ`. -/

/-- A 3D point with rational coordinates, one row of the `(n, 3)` input
array of `_decimate_points`. -/
structure Pt where
  x : ℚ
  y : ℚ
  z : ℚ
  deriving DecidableEq

/-- Embedding of `np.arange(start, stop, step)` for a positive step: the
values `start + k * step` for `0 ≤ k < ⌈(stop - start) / step⌉`. -/
def arangeQ (start stop step : ℚ) : List ℚ :=
  (List.range (Int.toNat ⌈(stop - start) / step⌉)).map fun k => start + (k : ℚ) * step

/-- Membership of coordinate `v` in bin `i` of the axis with edge list
`ax`, following `np.histogramdd` (line 189 of the source): each bin is the
half-open interval between consecutive edges, except the last bin, which
also contains its right edge. -/
def inHistBin (ax : List ℚ) (i : ℕ) (v : ℚ) : Bool :=
  decide (ax.getD i 0 ≤ v) &&
    (decide (v < ax.getD (i + 1) 0) ||
      (decide (i + 2 = ax.length) && decide (v = ax.getD (i + 1) 0)))

/-- Number of points falling in voxel `(i, j, k)` of the histogram grid,
the entry `H[i, j, k]` computed on line 189 of the source. -/
def histCount (pts : List Pt) (xax yax zax : List ℚ) (i j k : ℕ) : ℕ :=
  pts.countP fun p => inHistBin xax i p.x && inHistBin yax j p.y && inHistBin zax k p.z

/-- All voxel index triples in C order, the iteration order of
`np.nonzero(H)` on line 194 of the source. -/
def voxelIndices (nx ny nz : ℕ) : List (ℕ × ℕ × ℕ) :=
  (List.range nx).flatMap fun i =>
    (List.range ny).flatMap fun j =>
      (List.range nz).map fun k => (i, j, k)

/-- Squared Euclidean distance from `p` to the voxel centre
`(mx, my, mz)`; the source computes the distance itself (`cdist`, line
205) but only ever compares distances through `np.argmin`. -/
def sqDist (mx my mz : ℚ) (p : Pt) : ℚ :=
  (p.x - mx) ^ 2 + (p.y - my) ^ 2 + (p.z - mz) ^ 2

/-- First minimiser of `f`, as selected by `np.argmin` on line 206 (ties
resolved in favour of the earliest index); `none` on the empty list, where
`np.argmin` raises `ValueError`. -/
def argminFirst (f : Pt → ℚ) : List Pt → Option Pt
  | [] => none
  | p :: rest => some (rest.foldl (fun best q => if f q < f best then q else best) p)

/-- Membership of `p` in the selection box of voxel `(i, j, k)`: the
half-open conditions `X >= x && X < x + res` (and likewise for y, z) of
lines 198-201 of the source. -/
def selInVoxel (res : ℚ) (xax yax zax : List ℚ) (i j k : ℕ) (p : Pt) : Bool :=
  decide (xax.getD i 0 ≤ p.x) && decide (p.x < xax.getD i 0 + res) &&
  (decide (yax.getD j 0 ≤ p.y) && decide (p.y < yax.getD j 0 + res)) &&
  (decide (zax.getD k 0 ≤ p.z) && decide (p.z < zax.getD k 0 + res))

/-- Retained point of one voxel: the point of the half-open selection box
closest to the voxel centre (lines 195-208 of the source); `none` models
the `ValueError` raised by `np.argmin` when the selection is empty. -/
def chooseInVoxel (pts : List Pt) (res : ℚ) (xax yax zax : List ℚ)
    (v : ℕ × ℕ × ℕ) : Option Pt :=
  let i := v.1
  let j := v.2.1
  let k := v.2.2
  let ipts := pts.filter (selInVoxel res xax yax zax i j k)
  argminFirst
    (sqDist (xax.getD i 0 + res / 2) (yax.getD j 0 + res / 2) (zax.getD k 0 + res / 2))
    ipts

/-- The loop over occupied voxels of lines 194-208 of the source, failing
as soon as one voxel has an empty selection. -/
def choosePoints (pts : List Pt) (res : ℚ) (xax yax zax : List ℚ) :
    List (ℕ × ℕ × ℕ) → Option (List Pt)
  | [] => some []
  | v :: rest =>
    match chooseInVoxel pts res xax yax zax v, choosePoints pts res xax yax zax rest with
    | some p, some ps => some (p :: ps)
    | _, _ => none

/-- Embedding of `_decimate_points(pts, res)` (lines 160-210 of the
source): build the three bin-edge axes from the bounding box expanded by
`res / 2` below and `res` above, keep the voxels whose histogram count is
positive, and for each retain the selected point closest to its centre.
`none` models the exceptions of the source: the empty input (`pts.min`
raises) and an empty per-voxel selection (`np.argmin` raises). -/
def decimatePoints (pts : List Pt) (res : ℚ) : Option (List Pt) :=
  match pts with
  | [] => none
  | p :: rest =>
    let xmin := (rest.map Pt.x).foldl min p.x - res / 2
    let ymin := (rest.map Pt.y).foldl min p.y - res / 2
    let zmin := (rest.map Pt.z).foldl min p.z - res / 2
    let xmax := (rest.map Pt.x).foldl max p.x + res
    let ymax := (rest.map Pt.y).foldl max p.y + res
    let zmax := (rest.map Pt.z).foldl max p.z + res
    let xax := arangeQ xmin xmax res
    let yax := arangeQ ymin ymax res
    let zax := arangeQ zmin zmax res
    let occ := (voxelIndices (xax.length - 1) (yax.length - 1) (zax.length - 1)).filter
      fun v => decide (0 < histCount pts xax yax zax v.1 v.2.1 v.2.2)
    choosePoints pts res xax yax zax occ

/-! ### Homogeneous transform primitives

The functions `rotation`, `rotation3d`, `translation` and `scaling` are
imported by `coreg.py` from `mne.transforms`, a module that is not part of
the inspected source; they are modelled here from the spec (§3, §4.3): a
4×4 homogeneous matrix whose bottom row is `[0, 0, 0, 1]` for each of the
three components, rotation parameterized by three angles. -/

/-- A 3D point with real coordinates, one row of an `(n, 3)` array. -/
abbrev Pt3 : Type := ℝ × ℝ × ℝ

/-- Modelled from the spec: `rotation3d(x, y, z)` of the missing
`mne.transforms` module, the 3×3 rotation matrix for the three rotation
angles `(x, y, z)`; the spec fixes only that three angles parameterize the
rotation, so the standard composition of the rotations about the z-, y-
and x-axes is used. -/
noncomputable def rotation3d (x y z : ℝ) : Matrix (Fin 3) (Fin 3) ℝ :=
  !![Real.cos y * Real.cos z,
     -Real.cos x * Real.sin z + Real.sin x * Real.sin y * Real.cos z,
     Real.sin x * Real.sin z + Real.cos x * Real.sin y * Real.cos z;
     Real.cos y * Real.sin z,
     Real.cos x * Real.cos z + Real.sin x * Real.sin y * Real.sin z,
     -Real.sin x * Real.cos z + Real.cos x * Real.sin y * Real.sin z;
     -Real.sin y, Real.sin x * Real.cos y, Real.cos x * Real.cos y]

/-- Modelled from the spec: `rotation(x, y, z)` of the missing
`mne.transforms` module, the homogeneous 4×4 version of `rotation3d`. -/
noncomputable def rotation (x y z : ℝ) : Matrix (Fin 4) (Fin 4) ℝ :=
  !![rotation3d x y z 0 0, rotation3d x y z 0 1, rotation3d x y z 0 2, 0;
     rotation3d x y z 1 0, rotation3d x y z 1 1, rotation3d x y z 1 2, 0;
     rotation3d x y z 2 0, rotation3d x y z 2 1, rotation3d x y z 2 2, 0;
     0, 0, 0, 1]

/-- Modelled from the spec: `translation(x, y, z)` of the missing
`mne.transforms` module, the homogeneous matrix translating by
`(x, y, z)`. -/
noncomputable def translation (x y z : ℝ) : Matrix (Fin 4) (Fin 4) ℝ :=
  !![1, 0, 0, x;
     0, 1, 0, y;
     0, 0, 1, z;
     0, 0, 0, 1]

/-- Modelled from the spec: `scaling(x, y, z)` of the missing
`mne.transforms` module, the homogeneous matrix scaling each axis by the
corresponding factor. -/
noncomputable def scaling (x y z : ℝ) : Matrix (Fin 4) (Fin 4) ℝ :=
  !![x, 0, 0, 0;
     0, y, 0, 0;
     0, 0, z, 0;
     0, 0, 0, 1]

/-- Error taxonomy of the spec (§7), refining the exceptions raised by the
source: `shapeMismatch` and `invalidOut` are `ValueError`s,
`unsupportedConfiguration` is the `NotImplementedError` naming the
offending `(rotate, translate, scale)` combination, `toleranceExceeded`
is the `RuntimeError` carrying the residual vector, `landmarkShape` is
the `ValueError` of `get_ras_to_neuromag_trans`, and `emptyReduce` is the
`TypeError` raised by `reduce` on an empty sequence. -/
inductive CoregError where
  | shapeMismatch (n m : ℕ)
  | landmarkShape
  | unsupportedConfiguration (doRotate doTranslate : Bool) (doScale : ℤ)
  | toleranceExceeded (residuals : List ℝ)
  | invalidOut (out : String)
  | emptyReduce

/-- The list `trans` built by `_trans_from_params` (lines 229-249 of the
source): the rotation matrix is appended first, the translation matrix is
then inserted at the front, and the scaling matrix (for `do_scale` equal
to 1 or 3) is appended at the end; the parameter cursor `i` advances only
over active components.  Out-of-range parameter accesses default to 0
(the source would raise an unpacking error there). -/
noncomputable def transList (doRotate doTranslate : Bool) (doScale : ℤ)
    (params : List ℝ) : List (Matrix (Fin 4) (Fin 4) ℝ) :=
  let i1 : ℕ := if doRotate then 3 else 0
  let l1 := if doRotate then
      [rotation (params.getD 0 0) (params.getD 1 0) (params.getD 2 0)]
    else []
  let l2 := if doTranslate then
      translation (params.getD i1 0) (params.getD (i1 + 1) 0) (params.getD (i1 + 2) 0) :: l1
    else l1
  let i2 := if doTranslate then i1 + 3 else i1
  if doScale = 1 then
    l2 ++ [scaling (params.getD i2 0) (params.getD i2 0) (params.getD i2 0)]
  else if doScale = 3 then
    l2 ++ [scaling (params.getD i2 0) (params.getD (i2 + 1) 0) (params.getD (i2 + 2) 0)]
  else l2

/-- Embedding of `_trans_from_params(param_info, params)` (lines 213-251
of the source): the left fold of matrix multiplication over `transList`
(`reduce(dot, trans)`), which raises (`emptyReduce`) when no component is
active. -/
noncomputable def transFromParams (info : Bool × Bool × ℤ) (params : List ℝ) :
    Except CoregError (Matrix (Fin 4) (Fin 4) ℝ) :=
  match transList info.1 info.2.1 info.2.2 params with
  | [] => .error .emptyReduce
  | m :: rest => .ok (rest.foldl (· * ·) m)

/-- The rotation factor of the descriptor, or the identity when rotation
is inactive. -/
noncomputable def rotMatOf (doRotate : Bool) (params : List ℝ) :
    Matrix (Fin 4) (Fin 4) ℝ :=
  if doRotate then rotation (params.getD 0 0) (params.getD 1 0) (params.getD 2 0) else 1

/-- The translation factor of the descriptor, or the identity when
translation is inactive. -/
noncomputable def translMatOf (doRotate doTranslate : Bool) (params : List ℝ) :
    Matrix (Fin 4) (Fin 4) ℝ :=
  let i1 : ℕ := if doRotate then 3 else 0
  if doTranslate then
    translation (params.getD i1 0) (params.getD (i1 + 1) 0) (params.getD (i1 + 2) 0)
  else 1

/-- The scaling factor of the descriptor, or the identity when scaling is
inactive (`do_scale` outside {1, 3}). -/
noncomputable def scaleMatOf (doRotate doTranslate : Bool) (doScale : ℤ)
    (params : List ℝ) : Matrix (Fin 4) (Fin 4) ℝ :=
  let i1 : ℕ := if doRotate then 3 else 0
  let i2 := if doTranslate then i1 + 3 else i1
  if doScale = 1 then
    scaling (params.getD i2 0) (params.getD i2 0) (params.getD i2 0)
  else if doScale = 3 then
    scaling (params.getD i2 0) (params.getD (i2 + 1) 0) (params.getD (i2 + 2) 0)
  else 1

/-- Modelled from the spec (§4.3): the composed matrix
`scale_matrix · translate_matrix · rotate_matrix` that the spec asserts
`params_to_matrix` produces, with identity factors for inactive
components and the parameter layout of §3. -/
noncomputable def specOrderTrans (doRotate doTranslate : Bool) (doScale : ℤ)
    (params : List ℝ) : Matrix (Fin 4) (Fin 4) ℝ :=
  scaleMatOf doRotate doTranslate doScale params *
    translMatOf doRotate doTranslate params * rotMatOf doRotate params

/-- The homogeneous 4-vector `(x, y, z, 1)` of a point. -/
def homVec (p : Pt3) : Fin 4 → ℝ := ![p.1, p.2.1, p.2.2, 1]

/-- The plain 3-vector of a point. -/
def vec3 (p : Pt3) : Fin 3 → ℝ := ![p.1, p.2.1, p.2.2]

/-- Application of a 3×3 matrix to a point, one row of
`np.dot(src_pts, trans.T)` for a 3-column `src_pts`. -/
noncomputable def mulVec3 (A : Matrix (Fin 3) (Fin 3) ℝ) (p : Pt3) : Pt3 :=
  (A.mulVec (vec3 p) 0, A.mulVec (vec3 p) 1, A.mulVec (vec3 p) 2)

/-- Application of a homogeneous 4×4 matrix to a point: one row of
`np.dot(src_pts, trans.T)[:, :3]` for a homogeneous-augmented
`src_pts`. -/
noncomputable def applyHom4 (M : Matrix (Fin 4) (Fin 4) ℝ) (p : Pt3) : Pt3 :=
  (M.mulVec (homVec p) 0, M.mulVec (homVec p) 1, M.mulVec (homVec p) 2)

/-! ### Matched-point fitting (`fit_matched_points`, coreg.py lines 254-373)

`scipy.optimize.leastsq` is an external collaborator (spec §4.4: a
general-purpose nonlinear least-squares solver), so the embedding takes
the solver as a function argument mapping a residual function and an
initial parameter vector to a solution vector; the theorems below hold
for an arbitrary solver. -/

/-- Result of `fit_matched_points`: the parameter vector for
`out='params'` or the 4×4 matrix for `out='trans'`. -/
inductive FitRes where
  | params (x : List ℝ)
  | trans (M : Matrix (Fin 4) (Fin 4) ℝ)

/-- Flattening of a list of 3D points, `.ravel()` of an `(n, 3)` array in
row-major order. -/
def flatten3 (l : List Pt3) : List ℝ :=
  l.flatMap fun p => [p.1, p.2.1, p.2.2]

/-- The four parameter combinations implemented by `fit_matched_points`
(lines 313-345 of the source). -/
def supportedCombo (info : Bool × Bool × ℤ) : Prop :=
  info = (true, false, 0) ∨ info = (true, false, 1) ∨
    info = (true, true, 0) ∨ info = (true, true, 1)

/-- The residual function `error(x)` that `fit_matched_points` builds for
each supported combination (lines 313-345 of the source) and hands to the
solver: the flattened rows of `tgt_pts - est`.  For the translation-active
combinations the source pre-augments `src_pts` with a homogeneous column
and drops the fourth output column; the embedding performs both inside
`applyHom4`.  Parameter unpacking defaults missing entries to 0 (the
source would raise there). -/
noncomputable def errFunOf (doRotate doTranslate : Bool) (doScale : ℤ)
    (src tgt : List Pt3) (x : List ℝ) : List ℝ :=
  match doRotate, doTranslate, doScale with
  | true, false, 0 =>
    flatten3 (List.zipWith
      (fun tp sp => tp -
        mulVec3 (rotation3d (x.getD 0 0) (x.getD 1 0) (x.getD 2 0)) sp)
      tgt src)
  | true, false, 1 =>
    flatten3 (List.zipWith
      (fun tp sp => tp -
        mulVec3 (x.getD 3 0 • rotation3d (x.getD 0 0) (x.getD 1 0) (x.getD 2 0)) sp)
      tgt src)
  | true, true, 0 =>
    flatten3 (List.zipWith
      (fun tp sp => tp - applyHom4
        (translation (x.getD 3 0) (x.getD 4 0) (x.getD 5 0) *
          rotation (x.getD 0 0) (x.getD 1 0) (x.getD 2 0)) sp)
      tgt src)
  | true, true, 1 =>
    flatten3 (List.zipWith
      (fun tp sp => tp - applyHom4
        (translation (x.getD 3 0) (x.getD 4 0) (x.getD 5 0) *
          rotation (x.getD 0 0) (x.getD 1 0) (x.getD 2 0) *
          scaling (x.getD 6 0) (x.getD 6 0) (x.getD 6 0)) sp)
      tgt src)
  | _, _, _ => []

/-- The default initial guess of each supported combination (the identity
transform: zero rotation and translation, unit scale). -/
noncomputable def x0Default (doRotate doTranslate : Bool) (doScale : ℤ) : List ℝ :=
  match doRotate, doTranslate, doScale with
  | true, false, 0 => [0, 0, 0]
  | true, false, 1 => [0, 0, 0, 1]
  | true, true, 0 => [0, 0, 0, 0, 0, 0]
  | true, true, 1 => [0, 0, 0, 0, 0, 0, 1]
  | _, _, _ => []

/-- Euclidean norm of a 3D residual, one entry of
`np.sqrt(np.sum((est_pts - tgt_pts) ** 2, axis=1))` (line 362 of the
source). -/
noncomputable def norm3 (p : Pt3) : ℝ := Real.sqrt (p.1 ^ 2 + p.2.1 ^ 2 + p.2.2 ^ 2)

/-- The per-point residual norms of the fitted transform (lines 359-362
of the source: apply the homogeneous matrix to the augmented source points
and take the rowwise distance to the targets). -/
noncomputable def residualNorms (trans : Matrix (Fin 4) (Fin 4) ℝ)
    (src tgt : List Pt3) : List ℝ :=
  List.zipWith (fun sp tp => norm3 (applyHom4 trans sp - tp)) src tgt

/-- The output dispatch of lines 366-373 of the source; the matrix is
passed along only when it was computed, and the `out='trans'` branch is
only ever reached with a computed matrix. -/
noncomputable def outResult (x : List ℝ)
    (tr : Option (Matrix (Fin 4) (Fin 4) ℝ)) (out : String) :
    Except CoregError FitRes :=
  if out = "params" then .ok (.params x)
  else if out = "trans" then
    match tr with
    | some M => .ok (.trans M)
    | none => .error (.invalidOut out)
  else .error (.invalidOut out)

/-- The tail of `fit_matched_points` after the solver returns (lines
353-373 of the source): re-create the transformation matrix when a
tolerance is supplied or a matrix output is requested, perform the
tolerance gate, then dispatch on `out`. -/
noncomputable def afterSolve (src tgt : List Pt3) (doRotate doTranslate : Bool)
    (doScale : ℤ) : Option ℝ → String → List ℝ → Except CoregError FitRes
  | some tolv, out, x =>
    match transFromParams (doRotate, doTranslate, doScale) x with
    | .error e => .error e
    | .ok trMat =>
      if (residualNorms trMat src tgt).any (fun e => decide (tolv < e)) then
        .error (.toleranceExceeded (residualNorms trMat src tgt))
      else outResult x (some trMat) out
  | none, out, x =>
    if out = "trans" then
      match transFromParams (doRotate, doTranslate, doScale) x with
      | .error e => .error e
      | .ok trMat => outResult x (some trMat) out
    else outResult x none out

/-- Embedding of `fit_matched_points(src_pts, tgt_pts, rotate, translate,
scale, tol, x0, out)` (lines 254-373 of the source), parameterized by the
external least-squares solver: the shape check comes first, then the
four-way combination dispatch (any other combination fails with an
UnsupportedConfiguration error naming it), then the solver call on that
combination's residual function and initial guess, and finally the
post-solve tolerance gate and output dispatch.  Rows are typed as 3D
points, so the shape comparison of line 301 is the point-count
comparison. -/
noncomputable def fitMatchedPoints
    (solver : (List ℝ → List ℝ) → List ℝ → List ℝ)
    (src tgt : List Pt3) (doRotate doTranslate : Bool) (doScale : ℤ)
    (tolOpt : Option ℝ) (x0Opt : Option (List ℝ)) (out : String) :
    Except CoregError FitRes :=
  if src.length = tgt.length then
    match doRotate, doTranslate, doScale with
    | true, false, 0 | true, false, 1 | true, true, 0 | true, true, 1 =>
      afterSolve src tgt doRotate doTranslate doScale tolOpt out
        (solver (errFunOf doRotate doTranslate doScale src tgt)
          (x0Opt.getD (x0Default doRotate doTranslate doScale)))
    | r, t, s => .error (.unsupportedConfiguration r t s)
  else .error (.shapeMismatch src.length tgt.length)

/-! ### Head-frame construction (`get_ras_to_neuromag_trans`, lines
376-426 of the source) -/

/-- Conversion of a length-3 list to a point (the unpacking of a
validated landmark). -/
def toPt3 (l : List ℝ) : Pt3 := (l.getD 0 0, l.getD 1 0, l.getD 2 0)

/-- Dot product of two 3D vectors. -/
noncomputable def dot3 (a b : Pt3) : ℝ := a.1 * b.1 + a.2.1 * b.2.1 + a.2.2 * b.2.2

/-- Cross product of two 3D vectors, `np.cross` on line 416 of the
source. -/
noncomputable def cross3 (a b : Pt3) : Pt3 :=
  (a.2.1 * b.2.2 - a.2.2 * b.2.1,
   a.2.2 * b.1 - a.1 * b.2.2,
   a.1 * b.2.1 - a.2.1 * b.1)

/-- Scalar multiple of a 3D vector. -/
noncomputable def smul3 (c : ℝ) (a : Pt3) : Pt3 := (c * a.1, c * a.2.1, c * a.2.2)

/-- Embedding of `get_ras_to_neuromag_trans(nasion, lpa, rpa)` (lines
376-426 of the source): validate that each landmark is a length-3 vector
(the `ndim` check of the source is vacuous for a flat list), set the
x-axis through the preauricular points, the origin at the projection of
the nasion onto it, the y-axis toward the nasion and the z-axis as their
cross product, and compose the rotation rows with the recentering
translation. -/
noncomputable def getRasToNeuromagTrans (nasion lpa rpa : List ℝ) :
    Except CoregError (Matrix (Fin 4) (Fin 4) ℝ) :=
  if nasion.length = 3 ∧ lpa.length = 3 ∧ rpa.length = 3 then
    let n := toPt3 nasion
    let l := toPt3 lpa
    let r := toPt3 rpa
    let right : Pt3 := r - l
    let rightUnit := smul3 (1 / norm3 right) right
    let origin : Pt3 := l + smul3 (dot3 (n - l) rightUnit) rightUnit
    let anterior : Pt3 := n - origin
    let anteriorUnit := smul3 (1 / norm3 anterior) anterior
    let superiorUnit := cross3 rightUnit anteriorUnit
    let originTrans := translation (-origin.1) (-origin.2.1) (-origin.2.2)
    let rotTrans : Matrix (Fin 4) (Fin 4) ℝ :=
      !![rightUnit.1, rightUnit.2.1, rightUnit.2.2, 0;
         anteriorUnit.1, anteriorUnit.2.1, anteriorUnit.2.2, 0;
         superiorUnit.1, superiorUnit.2.1, superiorUnit.2.2, 0;
         0, 0, 0, 1]
    .ok (rotTrans * originTrans)
  else .error .landmarkShape

/-! ### Theorems -/

/-! ### Structural lemmas about the decimation loop -/

/-- The fold used by `argminFirst` only ever returns its starting point or
a member of the list it scans. -/
theorem argmin_foldl_mem (f : Pt → ℚ) :
    ∀ (rest : List Pt) (p : Pt),
      rest.foldl (fun best q => if f q < f best then q else best) p ∈ p :: rest := by
  intro rest
  induction rest with
  | nil => intro p; simp
  | cons q t ih =>
    intro p
    have h := ih (if f q < f p then q else p)
    have hfold : (q :: t).foldl (fun best r => if f r < f best then r else best) p
        = t.foldl (fun best r => if f r < f best then r else best)
            (if f q < f p then q else p) := rfl
    rw [hfold]
    rcases List.mem_cons.1 h with h1 | h1
    · rw [h1]
      by_cases hc : f q < f p
      · rw [if_pos hc]; exact List.mem_cons_of_mem _ (List.mem_cons_self q t)
      · rw [if_neg hc]; exact List.mem_cons_self p _
    · exact List.mem_cons_of_mem _ (List.mem_cons_of_mem _ h1)

/-- A point returned by `argminFirst` is a member of the candidate list. -/
theorem argminFirst_mem {f : Pt → ℚ} {l : List Pt} {p : Pt}
    (h : argminFirst f l = some p) : p ∈ l := by
  cases l with
  | nil => simp [argminFirst] at h
  | cons q t =>
    simp only [argminFirst, Option.some.injEq] at h
    exact h ▸ argmin_foldl_mem f t q

/-- A point retained for a voxel is one of the input points. -/
theorem chooseInVoxel_mem {pts : List Pt} {res : ℚ} {xax yax zax : List ℚ}
    {v : ℕ × ℕ × ℕ} {p : Pt} (h : chooseInVoxel pts res xax yax zax v = some p) :
    p ∈ pts := by
  have h1 := argminFirst_mem h
  exact List.mem_of_mem_filter h1

/-- Every point produced by the per-voxel loop is one of the input points. -/
theorem choosePoints_mem {pts : List Pt} {res : ℚ} {xax yax zax : List ℚ} :
    ∀ {vs : List (ℕ × ℕ × ℕ)} {out : List Pt},
      choosePoints pts res xax yax zax vs = some out → ∀ p ∈ out, p ∈ pts := by
  intro vs
  induction vs with
  | nil =>
    intro out h p hp
    simp only [choosePoints, Option.some.injEq] at h
    subst h
    simp at hp
  | cons v rest ih =>
    intro out h p hp
    simp only [choosePoints] at h
    rcases hv : chooseInVoxel pts res xax yax zax v with _ | q
    · rw [hv] at h; exact absurd h (by simp)
    · rw [hv] at h
      rcases hr : choosePoints pts res xax yax zax rest with _ | qs
      · rw [hr] at h; exact absurd h (by simp)
      · rw [hr] at h
        simp only [Option.some.injEq] at h
        subst h
        rcases List.mem_cons.1 hp with h1 | h1
        · exact h1 ▸ chooseInVoxel_mem hv
        · exact ih hr p h1

/-- Decimation returns a subset of its input. -/
theorem decimate_mem {pts : List Pt} {res : ℚ} {out : List Pt}
    (h : decimatePoints pts res = some out) : ∀ p ∈ out, p ∈ pts := by
  cases pts with
  | nil => simp [decimatePoints] at h
  | cons p0 rest =>
    simp only [decimatePoints] at h
    exact choosePoints_mem h

/-- C4 counterexample: voxel decimation is not idempotent.  Decimating the
four points (0, 2/5, 0), (3/10, 0, 0), (9/20, 2, 0), (11/20, 2, 0) with
`res = 1` keeps the last three, but the second pass re-anchors the grid at
the new minima, so (9/20, 2, 0) and (11/20, 2, 0) now share a voxel and
(11/20, 2, 0) is dropped: the second application returns a strictly
smaller point set. -/
theorem decimate_not_idempotent :
    decimatePoints [⟨0, 2/5, 0⟩, ⟨3/10, 0, 0⟩, ⟨9/20, 2, 0⟩, ⟨11/20, 2, 0⟩] 1 =
      some [⟨3/10, 0, 0⟩, ⟨9/20, 2, 0⟩, ⟨11/20, 2, 0⟩] ∧
    decimatePoints [⟨3/10, 0, 0⟩, ⟨9/20, 2, 0⟩, ⟨11/20, 2, 0⟩] 1 =
      some [⟨3/10, 0, 0⟩, ⟨9/20, 2, 0⟩] ∧
    (⟨11/20, 2, 0⟩ : Pt) ∉ [(⟨3/10, 0, 0⟩ : Pt), ⟨9/20, 2, 0⟩] := by
  with_unfolding_all decide

/-- C4 (amended): decimating an already-decimated point set with the same
`res` returns a subset of that point set; it need not return the same set,
because the voxel grid is re-anchored at the minima of the new input and
previously distinct voxels can merge. -/
theorem decimate_decimate_subset
    (pts : List Pt) (res : ℚ) (out out2 : List Pt) (p : Pt)
    (_h1 : decimatePoints pts res = some out)
    (h2 : decimatePoints out res = some out2)
    (hp : p ∈ out2) : p ∈ out :=
  decimate_mem h2 p hp

/-- Witness for `decimate_decimate_subset` at the concrete point sets of
`decimate_not_idempotent`. -/
theorem decimate_decimate_subset_witness :
    (⟨9/20, 2, 0⟩ : Pt) ∈ [(⟨3/10, 0, 0⟩ : Pt), ⟨9/20, 2, 0⟩, ⟨11/20, 2, 0⟩] :=
  decimate_decimate_subset [⟨0, 2/5, 0⟩, ⟨3/10, 0, 0⟩, ⟨9/20, 2, 0⟩, ⟨11/20, 2, 0⟩] 1
    [⟨3/10, 0, 0⟩, ⟨9/20, 2, 0⟩, ⟨11/20, 2, 0⟩] [⟨3/10, 0, 0⟩, ⟨9/20, 2, 0⟩]
    ⟨9/20, 2, 0⟩ (by with_unfolding_all decide) (by with_unfolding_all decide)
    (by with_unfolding_all decide)

/-- C5: on the two points (0, 0, 0) and (1/2, 2, 0) with `res = 1` the
x-axis edge list is `[-1/2, 1/2]`, so the second point sits exactly on the
closed right edge of the last histogram bin: its voxel is occupied
according to `np.histogramdd`, yet the half-open selection of lines
198-201 is empty there, and `np.argmin` raises `ValueError` (the
coordinates involved are exactly representable in binary floating point,
so the crash is real, not an artefact of exact arithmetic). -/
theorem decimate_crashes_on_final_edge :
    decimatePoints [⟨0, 0, 0⟩, ⟨1/2, 2, 0⟩] 1 = none := by
  with_unfolding_all decide

/-! ### Bottom-row structure of the homogeneous matrices -/

/-- The bottom row of a rotation matrix. -/
theorem rotation_bottom (x y z : ℝ) : rotation x y z 3 = ![0, 0, 0, 1] := rfl

/-- The bottom row of a translation matrix. -/
theorem translation_bottom (x y z : ℝ) : translation x y z 3 = ![0, 0, 0, 1] := rfl

/-- The bottom row of a scaling matrix. -/
theorem scaling_bottom (x y z : ℝ) : scaling x y z 3 = ![0, 0, 0, 1] := rfl

/-- The bottom row of the identity matrix. -/
theorem one_bottom : (1 : Matrix (Fin 4) (Fin 4) ℝ) 3 = ![0, 0, 0, 1] := by
  funext j
  fin_cases j <;> simp [Matrix.one_apply]

/-- A product of two matrices with bottom row `[0, 0, 0, 1]` has bottom
row `[0, 0, 0, 1]`. -/
theorem mul_bottom {A B : Matrix (Fin 4) (Fin 4) ℝ}
    (hA : A 3 = ![0, 0, 0, 1]) (hB : B 3 = ![0, 0, 0, 1]) :
    (A * B) 3 = ![0, 0, 0, 1] := by
  funext j
  have h : (A * B) 3 j = B 3 j := by
    rw [Matrix.mul_apply, show A 3 = ![0, 0, 0, 1] from hA]
    simp [Fin.sum_univ_four]
  rw [h, hB]

/-- A left fold of matrix multiplication over matrices with bottom row
`[0, 0, 0, 1]` keeps that bottom row. -/
theorem foldl_mul_bottom :
    ∀ (l : List (Matrix (Fin 4) (Fin 4) ℝ)) (a : Matrix (Fin 4) (Fin 4) ℝ),
      a 3 = ![0, 0, 0, 1] → (∀ b ∈ l, b 3 = ![0, 0, 0, 1]) →
      (l.foldl (· * ·) a) 3 = ![0, 0, 0, 1] := by
  intro l
  induction l with
  | nil => intro a ha _; exact ha
  | cons b t ih =>
    intro a ha hl
    exact ih (a * b) (mul_bottom ha (hl b (List.mem_cons_self b t)))
      fun c hc => hl c (List.mem_cons_of_mem b hc)

/-- The fold performed by `reduce(dot, trans)` is the product of the
list with its head prepended. -/
theorem foldl_eq_prod (m : Matrix (Fin 4) (Fin 4) ℝ) (rest : List (Matrix (Fin 4) (Fin 4) ℝ)) :
    rest.foldl (· * ·) m = (m :: rest).prod := by
  induction rest generalizing m with
  | nil => simp
  | cons b t ih =>
    have h : (b :: t).foldl (fun acc c => acc * c) m = t.foldl (fun acc c => acc * c) (m * b) := rfl
    rw [List.prod_cons, List.prod_cons, ← mul_assoc, ← List.prod_cons, ← ih (m * b)]
    exact h

/-- Every matrix in the `trans` list built by `_trans_from_params` has
bottom row `[0, 0, 0, 1]`. -/
theorem transList_bottom (doRotate doTranslate : Bool) (doScale : ℤ)
    (params : List ℝ) :
    ∀ A ∈ transList doRotate doTranslate doScale params, A 3 = ![0, 0, 0, 1] := by
  intro A hA
  simp only [transList] at hA
  split_ifs at hA <;>
    simp only [List.mem_append, List.mem_cons, List.mem_singleton,
      List.not_mem_nil, or_false, false_or] at hA <;>
    first
      | (rcases hA with ((h | h) | h) <;> subst h <;>
          first
            | exact rotation_bottom _ _ _
            | exact translation_bottom _ _ _
            | exact scaling_bottom _ _ _)
      | (rcases hA with (h | h) <;> subst h <;>
          first
            | exact rotation_bottom _ _ _
            | exact translation_bottom _ _ _
            | exact scaling_bottom _ _ _)
      | (subst hA;
          first
            | exact rotation_bottom _ _ _
            | exact translation_bottom _ _ _
            | exact scaling_bottom _ _ _)

/-- The homogeneous vector of an applied point, for matrices with bottom
row `[0, 0, 0, 1]`. -/
theorem homVec_applyHom4 (B : Matrix (Fin 4) (Fin 4) ℝ)
    (hB : B 3 = ![0, 0, 0, 1]) (p : Pt3) :
    homVec (applyHom4 B p) = B.mulVec (homVec p) := by
  funext i
  fin_cases i
  · rfl
  · rfl
  · rfl
  · show (1 : ℝ) = B.mulVec (homVec p) 3
    simp [Matrix.mulVec, Matrix.dotProduct, hB, homVec, Fin.sum_univ_four,
      Matrix.cons_val_two, Matrix.cons_val_three]

/-- Applying a product of homogeneous matrices applies the right factor
first. -/
theorem applyHom4_mul (A B : Matrix (Fin 4) (Fin 4) ℝ)
    (hB : B 3 = ![0, 0, 0, 1]) (p : Pt3) :
    applyHom4 (A * B) p = applyHom4 A (applyHom4 B p) := by
  show ((A * B).mulVec (homVec p) 0, (A * B).mulVec (homVec p) 1,
      (A * B).mulVec (homVec p) 2)
    = (A.mulVec (homVec (applyHom4 B p)) 0, A.mulVec (homVec (applyHom4 B p)) 1,
      A.mulVec (homVec (applyHom4 B p)) 2)
  rw [homVec_applyHom4 B hB, Matrix.mulVec_mulVec]

/-- A translation matrix acts by adding the offset. -/
theorem applyHom4_translation (a b c : ℝ) (p : Pt3) :
    applyHom4 (translation a b c) p = (p.1 + a, p.2.1 + b, p.2.2 + c) := by
  simp [applyHom4, translation, homVec, Matrix.mulVec, Matrix.dotProduct,
    Fin.sum_univ_four, Matrix.cons_val_two, Matrix.cons_val_three]

/-- A scaling matrix acts by scaling each coordinate. -/
theorem applyHom4_scaling (a b c : ℝ) (p : Pt3) :
    applyHom4 (scaling a b c) p = (a * p.1, b * p.2.1, c * p.2.2) := by
  simp [applyHom4, scaling, homVec, Matrix.mulVec, Matrix.dotProduct,
    Fin.sum_univ_four, Matrix.cons_val_two, Matrix.cons_val_three]

/-- A homogeneous rotation matrix acts as its 3×3 block. -/
theorem applyHom4_rotation (x y z : ℝ) (p : Pt3) :
    applyHom4 (rotation x y z) p = mulVec3 (rotation3d x y z) p := by
  simp [applyHom4, rotation, mulVec3, homVec, vec3, Matrix.mulVec,
    Matrix.dotProduct, Fin.sum_univ_four, Fin.sum_univ_three,
    Matrix.cons_val_two, Matrix.cons_val_three]

/-- C7: whenever `_trans_from_params` produces a matrix, its bottom row is
exactly `[0, 0, 0, 1]`. -/
theorem transFromParams_bottom_row (doRotate doTranslate : Bool) (doScale : ℤ)
    (params : List ℝ) (M : Matrix (Fin 4) (Fin 4) ℝ)
    (h : transFromParams (doRotate, doTranslate, doScale) params = .ok M) :
    M 3 = ![0, 0, 0, 1] := by
  unfold transFromParams at h
  rcases hl : transList doRotate doTranslate doScale params with _ | ⟨m, rest⟩
  · rw [hl] at h; exact absurd h (by simp)
  · rw [hl] at h
    simp only [Except.ok.injEq] at h
    subst h
    refine foldl_mul_bottom rest m ?_ ?_
    · exact transList_bottom _ _ _ _ m (by rw [hl]; exact List.mem_cons_self m rest)
    · intro b hb
      exact transList_bottom _ _ _ _ b (by rw [hl]; exact List.mem_cons_of_mem m hb)

/-- Witness for `transFromParams_bottom_row` at the rotation-only
descriptor with zero angles. -/
theorem transFromParams_bottom_row_witness :
    rotation 0 0 0 3 = ![0, 0, 0, 1] :=
  transFromParams_bottom_row true false 0 [0, 0, 0] (rotation 0 0 0) rfl

/-- C9 counterexample: `_trans_from_params` performs no descriptor
validation.  The descriptor (do_rotate, do_translate, do_scale) =
(True, False, 2), outside the implemented combination set, silently
ignores the scale component and returns the rotation matrix instead of
failing with an UnsupportedConfiguration error; and the all-inactive
descriptor fails with the untyped `TypeError` of reducing an empty
sequence, which names no combination. -/
theorem transFromParams_no_validation :
    transFromParams (true, false, 2) [0, 0, 0] = .ok (rotation 0 0 0) ∧
    transFromParams (false, false, 0) [] = .error .emptyReduce :=
  ⟨rfl, rfl⟩

/-- C9 (amended): `_trans_from_params` does not validate its descriptor:
a `do_scale` value outside {1, 3} is silently ignored (the conversion
behaves exactly as with scaling disabled), and a descriptor with no
active component fails with the untyped empty-sequence error of `reduce`,
not with an UnsupportedConfiguration error naming the combination; the
combination check of the spec lives in the fitters instead. -/
theorem transFromParams_ignores_bad_scale (doRotate doTranslate : Bool)
    (doScale : ℤ) (params : List ℝ) (h1 : doScale ≠ 1) (h3 : doScale ≠ 3) :
    transFromParams (doRotate, doTranslate, doScale) params =
      transFromParams (doRotate, doTranslate, 0) params ∧
    transFromParams (false, false, doScale) params = .error .emptyReduce := by
  constructor
  · simp only [transFromParams, transList, if_neg h1, if_neg h3]
    norm_num
  · simp only [transFromParams, transList, if_neg h1, if_neg h3]
    simp

/-- Witness for `transFromParams_ignores_bad_scale` at `do_scale = 2`. -/
theorem transFromParams_ignores_bad_scale_witness :
    transFromParams (true, false, 2) [0, 0, 0] =
      transFromParams (true, false, 0) [0, 0, 0] ∧
    transFromParams (false, false, 2) [0, 0, 0] = .error .emptyReduce :=
  transFromParams_ignores_bad_scale true false 2 [0, 0, 0]
    (by norm_num) (by norm_num)

/-- C1 counterexample: at the descriptor (True, True, 1) with rotation
angles (0, 0, 0), translation (1, 0, 0) and scale 2, the source composes
`translate · rotate · scale`, whose (0, 3) entry is 1, while the spec's
composition `scale · translate · rotate` has (0, 3) entry 2: the produced
matrix differs from the matrix the spec prescribes. -/
theorem transFromParams_order_cex :
    transFromParams (true, true, 1) [0, 0, 0, 1, 0, 0, 2] =
      .ok (translation 1 0 0 * rotation 0 0 0 * scaling 2 2 2) ∧
    (translation 1 0 0 * rotation 0 0 0 * scaling 2 2 2) 0 3 = 1 ∧
    specOrderTrans true true 1 [0, 0, 0, 1, 0, 0, 2] 0 3 = 2 ∧
    translation 1 0 0 * rotation 0 0 0 * scaling 2 2 2 ≠
      specOrderTrans true true 1 [0, 0, 0, 1, 0, 0, 2] := by
  refine ⟨rfl, ?_, ?_, ?_⟩
  · simp [Matrix.mul_apply, Fin.sum_univ_four, translation, rotation, scaling,
      Matrix.cons_val_two, Matrix.cons_val_three]
  · simp [specOrderTrans, scaleMatOf, translMatOf, rotMatOf, Matrix.mul_apply,
      Fin.sum_univ_four, translation, rotation, scaling,
      Matrix.cons_val_two, Matrix.cons_val_three]
  · intro hEq
    have h1 : (translation 1 0 0 * rotation 0 0 0 * scaling 2 2 2) 0 3 = 1 := by
      simp [Matrix.mul_apply, Fin.sum_univ_four, translation, rotation, scaling,
        Matrix.cons_val_two, Matrix.cons_val_three]
    have h2 : specOrderTrans true true 1 [0, 0, 0, 1, 0, 0, 2] 0 3 = 2 := by
      simp [specOrderTrans, scaleMatOf, translMatOf, rotMatOf, Matrix.mul_apply,
        Fin.sum_univ_four, translation, rotation, scaling,
        Matrix.cons_val_two, Matrix.cons_val_three]
    rw [hEq, h2] at h1
    norm_num at h1

/-- C1 (amended): the matrix produced by `_trans_from_params` equals
`translate_matrix · rotate_matrix · scale_matrix` (with identity factors
for inactive components), so applied to a homogeneous point (x, y, z, 1)
it applies the scaling first, then the rotation, then the translation —
not the spec's rotation-translation-scaling order. -/
theorem transFromParams_composition (doRotate doTranslate : Bool) (doScale : ℤ)
    (params : List ℝ) (M : Matrix (Fin 4) (Fin 4) ℝ)
    (h : transFromParams (doRotate, doTranslate, doScale) params = .ok M) :
    M = translMatOf doRotate doTranslate params * rotMatOf doRotate params *
        scaleMatOf doRotate doTranslate doScale params ∧
    ∀ p : Pt3, applyHom4 M p =
      applyHom4 (translMatOf doRotate doTranslate params)
        (applyHom4 (rotMatOf doRotate params)
          (applyHom4 (scaleMatOf doRotate doTranslate doScale params) p)) := by
  have hrot : (rotMatOf doRotate params) 3 = ![0, 0, 0, 1] := by
    unfold rotMatOf
    split_ifs <;> first
      | exact rotation_bottom _ _ _
      | exact one_bottom
  have hscale : (scaleMatOf doRotate doTranslate doScale params) 3 = ![0, 0, 0, 1] := by
    unfold scaleMatOf
    split_ifs <;> first
      | exact scaling_bottom _ _ _
      | exact one_bottom
  have htransl : (translMatOf doRotate doTranslate params) 3 = ![0, 0, 0, 1] := by
    unfold translMatOf
    split_ifs <;> first
      | exact translation_bottom _ _ _
      | exact one_bottom
  have hM : M = translMatOf doRotate doTranslate params * rotMatOf doRotate params *
      scaleMatOf doRotate doTranslate doScale params := by
    have hprod : (transList doRotate doTranslate doScale params).prod =
        translMatOf doRotate doTranslate params * rotMatOf doRotate params *
          scaleMatOf doRotate doTranslate doScale params := by
      unfold transList translMatOf rotMatOf scaleMatOf
      by_cases hs1 : doScale = 1
      · cases doRotate <;> cases doTranslate <;> simp [hs1, mul_assoc]
      · by_cases hs3 : doScale = 3
        · cases doRotate <;> cases doTranslate <;> simp [hs1, hs3, mul_assoc]
        · cases doRotate <;> cases doTranslate <;> simp [hs1, hs3, mul_assoc]
    unfold transFromParams at h
    rcases hl : transList doRotate doTranslate doScale params with _ | ⟨m, rest⟩
    · rw [hl] at h; exact absurd h (by simp)
    · rw [hl] at h
      simp only [Except.ok.injEq] at h
      subst h
      rw [foldl_eq_prod, ← hl, hprod]
  refine ⟨hM, fun p => ?_⟩
  rw [hM, applyHom4_mul _ _ hscale, applyHom4_mul _ _ hrot]

/-- Witness for `transFromParams_composition` at the descriptor
(True, True, 1) with translation (1, 0, 0) and scale 2, applied to the
point (5, 6, 7). -/
theorem transFromParams_composition_witness :
    (translation 1 0 0 * rotation 0 0 0 * scaling 2 2 2 =
      translMatOf true true [0, 0, 0, 1, 0, 0, 2] *
        rotMatOf true [0, 0, 0, 1, 0, 0, 2] *
        scaleMatOf true true 1 [0, 0, 0, 1, 0, 0, 2]) ∧
    applyHom4 (translation 1 0 0 * rotation 0 0 0 * scaling 2 2 2) (5, 6, 7) =
      applyHom4 (translMatOf true true [0, 0, 0, 1, 0, 0, 2])
        (applyHom4 (rotMatOf true [0, 0, 0, 1, 0, 0, 2])
          (applyHom4 (scaleMatOf true true 1 [0, 0, 0, 1, 0, 0, 2]) (5, 6, 7))) :=
  ⟨(transFromParams_composition true true 1 [0, 0, 0, 1, 0, 0, 2]
      (translation 1 0 0 * rotation 0 0 0 * scaling 2 2 2) rfl).1,
   (transFromParams_composition true true 1 [0, 0, 0, 1, 0, 0, 2]
      (translation 1 0 0 * rotation 0 0 0 * scaling 2 2 2) rfl).2 (5, 6, 7)⟩



/-! ### Lemmas about the fitter -/

/-- The only error `_trans_from_params` itself can raise is the
empty-sequence error. -/
theorem transFromParams_error_empty (info : Bool × Bool × ℤ) (params : List ℝ)
    (e : CoregError) (h : transFromParams info params = .error e) :
    e = .emptyReduce := by
  unfold transFromParams at h
  rcases hl : transList info.1 info.2.1 info.2.2 params with _ | ⟨m, rest⟩ <;>
    simp only [hl] at h
  · simp only [Except.error.injEq] at h
    exact h.symm
  · exact absurd h (by simp)

/-- The `trans` list of a rotation-active descriptor is never empty. -/
theorem transList_rotate_ne_nil (doTranslate : Bool) (doScale : ℤ)
    (params : List ℝ) :
    transList true doTranslate doScale params ≠ [] := by
  unfold transList
  by_cases hs1 : doScale = 1 <;> by_cases hs3 : doScale = 3 <;>
    cases doTranslate <;> simp [hs1, hs3]

/-- A rotation-active descriptor always yields a matrix. -/
theorem transFromParams_rotate_isOk (doTranslate : Bool) (doScale : ℤ)
    (params : List ℝ) :
    ∃ M, transFromParams (true, doTranslate, doScale) params = .ok M := by
  unfold transFromParams
  rcases hl : transList true doTranslate doScale params with _ | ⟨m, rest⟩
  · exact absurd hl (transList_rotate_ne_nil _ _ _)
  · exact ⟨rest.foldl (· * ·) m, by simp only [hl]⟩

/-- The post-solve phase never raises an UnsupportedConfiguration
error. -/
theorem afterSolve_ne_unsupported (src tgt : List Pt3)
    (doRotate doTranslate : Bool) (doScale : ℤ) (tolOpt : Option ℝ)
    (out : String) (x : List ℝ) (r' t' : Bool) (s' : ℤ) :
    afterSolve src tgt doRotate doTranslate doScale tolOpt out x ≠
      .error (.unsupportedConfiguration r' t' s') := by
  intro hcontra
  rcases tolOpt with _ | tolv
  · simp only [afterSolve] at hcontra
    by_cases hout : out = "trans"
    · rw [if_pos hout] at hcontra
      rcases htr : transFromParams (doRotate, doTranslate, doScale) x with e | M <;>
        simp only [htr] at hcontra
      · simp only [Except.error.injEq] at hcontra
        have he := transFromParams_error_empty _ _ _ htr
        subst hcontra
        simp at he
      · unfold outResult at hcontra
        split_ifs at hcontra
    · rw [if_neg hout] at hcontra
      unfold outResult at hcontra
      split_ifs at hcontra
      all_goals simp at hcontra
  · simp only [afterSolve] at hcontra
    rcases htr : transFromParams (doRotate, doTranslate, doScale) x with e | M <;>
      simp only [htr] at hcontra
    · simp only [Except.error.injEq] at hcontra
      have he := transFromParams_error_empty _ _ _ htr
      subst hcontra
      simp at he
    · by_cases hany : (residualNorms M src tgt).any (fun e => decide (tolv < e)) = true
      · rw [if_pos hany] at hcontra
        simp at hcontra
      · rw [if_neg hany] at hcontra
        unfold outResult at hcontra
        split_ifs at hcontra
        all_goals simp at hcontra

/-- A mismatched shape short-circuits `fit_matched_points` to the
ShapeMismatch error regardless of every other argument. -/
theorem fitMatchedPoints_shape_fail (solver : (List ℝ → List ℝ) → List ℝ → List ℝ)
    (src tgt : List Pt3) (doRotate doTranslate : Bool) (doScale : ℤ)
    (tolOpt : Option ℝ) (x0Opt : Option (List ℝ)) (out : String)
    (hne : src.length ≠ tgt.length) :
    fitMatchedPoints solver src tgt doRotate doTranslate doScale tolOpt x0Opt out =
      .error (.shapeMismatch src.length tgt.length) := by
  unfold fitMatchedPoints
  rw [if_neg hne]

/-- An unsupported combination makes `fit_matched_points` fail with the
UnsupportedConfiguration error naming it. -/
theorem fitMatchedPoints_unsupported_eq (solver : (List ℝ → List ℝ) → List ℝ → List ℝ)
    (src tgt : List Pt3) (r t : Bool) (s : ℤ)
    (tolOpt : Option ℝ) (x0Opt : Option (List ℝ)) (out : String)
    (hn : ¬ supportedCombo (r, t, s)) (hshape : src.length = tgt.length) :
    fitMatchedPoints solver src tgt r t s tolOpt x0Opt out =
      .error (.unsupportedConfiguration r t s) := by
  unfold fitMatchedPoints
  rw [if_pos hshape]
  split
  · exact absurd (Or.inl rfl) hn
  · exact absurd (Or.inr (Or.inl rfl)) hn
  · exact absurd (Or.inr (Or.inr (Or.inl rfl))) hn
  · exact absurd (Or.inr (Or.inr (Or.inr rfl))) hn
  · rfl

/-- On a supported combination `fit_matched_points` is the post-solve
phase applied to the solver's output on that combination's residual
function and default initial guess. -/
theorem fitMatchedPoints_supported_eq (solver : (List ℝ → List ℝ) → List ℝ → List ℝ)
    (src tgt : List Pt3) (doRotate doTranslate : Bool) (doScale : ℤ)
    (tolOpt : Option ℝ) (x0Opt : Option (List ℝ)) (out : String)
    (hsupp : supportedCombo (doRotate, doTranslate, doScale))
    (hshape : src.length = tgt.length) :
    fitMatchedPoints solver src tgt doRotate doTranslate doScale tolOpt x0Opt out =
      afterSolve src tgt doRotate doTranslate doScale tolOpt out
        (solver (errFunOf doRotate doTranslate doScale src tgt)
          (x0Opt.getD (x0Default doRotate doTranslate doScale))) := by
  rcases hsupp with h | h | h | h <;>
    (simp only [Prod.mk.injEq] at h
     obtain ⟨h1, h2, h3⟩ := h
     subst h1; subst h2; subst h3
     unfold fitMatchedPoints
     rw [if_pos hshape]
     rfl)

/-- C2: `fit_matched_points` accepts exactly the four combinations
(True, False, 0), (True, False, 1), (True, True, 0), (True, True, 1); for
equal-shaped inputs and any other combination it fails with an
UnsupportedConfiguration error naming the offending combination and
returns no result, while the four accepted combinations never produce
that error. -/
theorem fitMatchedPoints_combinations (solver : (List ℝ → List ℝ) → List ℝ → List ℝ)
    (src tgt : List Pt3) (doRotate doTranslate : Bool) (doScale : ℤ)
    (tolOpt : Option ℝ) (x0Opt : Option (List ℝ)) (out : String)
    (hshape : src.length = tgt.length) :
    (¬ supportedCombo (doRotate, doTranslate, doScale) →
      fitMatchedPoints solver src tgt doRotate doTranslate doScale tolOpt x0Opt out =
        .error (.unsupportedConfiguration doRotate doTranslate doScale)) ∧
    (supportedCombo (doRotate, doTranslate, doScale) →
      ∀ (r' t' : Bool) (s' : ℤ),
        fitMatchedPoints solver src tgt doRotate doTranslate doScale tolOpt x0Opt out ≠
          .error (.unsupportedConfiguration r' t' s')) := by
  constructor
  · intro hn
    exact fitMatchedPoints_unsupported_eq solver src tgt doRotate doTranslate doScale
      tolOpt x0Opt out hn hshape
  · intro hsupp r' t' s'
    rw [fitMatchedPoints_supported_eq solver src tgt doRotate doTranslate doScale
      tolOpt x0Opt out hsupp hshape]
    exact afterSolve_ne_unsupported _ _ _ _ _ _ _ _ _ _ _

/-- Witness for `fitMatchedPoints_combinations`: the combination
(rotate=False, translate=True, scale=3) of the spec's scenario fails with
the UnsupportedConfiguration error naming it, while (True, False, 0)
never produces that error. -/
theorem fitMatchedPoints_combinations_witness :
    fitMatchedPoints (fun _ g => g) [((0:ℝ), 0, 0)] [((0:ℝ), 0, 0)]
        false true 3 none none "params" =
      .error (.unsupportedConfiguration false true 3) ∧
    fitMatchedPoints (fun _ g => g) [((0:ℝ), 0, 0)] [((0:ℝ), 0, 0)]
        true false 0 none none "params" ≠
      .error (.unsupportedConfiguration false true 3) :=
  ⟨(fitMatchedPoints_combinations (fun _ g => g) [((0:ℝ), 0, 0)] [((0:ℝ), 0, 0)]
      false true 3 none none "params" rfl).1
      (by unfold supportedCombo; simp),
   (fitMatchedPoints_combinations (fun _ g => g) [((0:ℝ), 0, 0)] [((0:ℝ), 0, 0)]
      true false 0 none none "params" rfl).2 (Or.inl rfl) false true 3⟩

/-- C8: `fit_matched_points` fails with the ShapeMismatch error before
any fitting (independently of the solver and of every other argument)
whenever the two point sets differ in shape, and
`get_ras_to_neuromag_trans` fails with the ShapeMismatch error whenever
one of the three landmarks is not a length-3 vector. -/
theorem shape_checks :
    (∀ (solver : (List ℝ → List ℝ) → List ℝ → List ℝ) (src tgt : List Pt3)
        (doRotate doTranslate : Bool) (doScale : ℤ) (tolOpt : Option ℝ)
        (x0Opt : Option (List ℝ)) (out : String),
      src.length ≠ tgt.length →
      fitMatchedPoints solver src tgt doRotate doTranslate doScale tolOpt x0Opt out =
        .error (.shapeMismatch src.length tgt.length)) ∧
    (∀ nasion lpa rpa : List ℝ,
      nasion.length ≠ 3 ∨ lpa.length ≠ 3 ∨ rpa.length ≠ 3 →
      getRasToNeuromagTrans nasion lpa rpa = .error .landmarkShape) := by
  constructor
  · intro solver src tgt doRotate doTranslate doScale tolOpt x0Opt out hne
    exact fitMatchedPoints_shape_fail solver src tgt doRotate doTranslate doScale
      tolOpt x0Opt out hne
  · intro nasion lpa rpa hbad
    unfold getRasToNeuromagTrans
    rw [if_neg]
    intro hall
    rcases hbad with h | h | h
    · exact h hall.1
    · exact h hall.2.1
    · exact h hall.2.2

/-- Witness for `shape_checks`: a one-point source against an empty
target, and a length-2 nasion. -/
theorem shape_checks_witness :
    fitMatchedPoints (fun _ g => g) [((0:ℝ), 0, 0)] [] true false 0 none none
        "params" = .error (.shapeMismatch 1 0) ∧
    getRasToNeuromagTrans [0, 1] [-1, 0, 0] [1, 0, 0] = .error .landmarkShape :=
  ⟨shape_checks.1 (fun _ g => g) [((0:ℝ), 0, 0)] [] true false 0 none none
      "params" (by simp),
   shape_checks.2 [0, 1] [-1, 0, 0] [1, 0, 0] (Or.inl (by simp))⟩

/-- With a supplied tolerance and an exceeded residual the post-solve
phase fails with ToleranceExceeded carrying the residuals. -/
theorem afterSolve_tol_exceeded (src tgt : List Pt3) (doRotate doTranslate : Bool)
    (doScale : ℤ) (out : String) (x : List ℝ) (tolv : ℝ)
    (M : Matrix (Fin 4) (Fin 4) ℝ)
    (hM : transFromParams (doRotate, doTranslate, doScale) x = .ok M)
    (hex : ∃ e ∈ residualNorms M src tgt, tolv < e) :
    afterSolve src tgt doRotate doTranslate doScale (some tolv) out x =
      .error (.toleranceExceeded (residualNorms M src tgt)) := by
  simp only [afterSolve, hM]
  rw [if_pos]
  rw [List.any_eq_true]
  obtain ⟨e, he, hlt⟩ := hex
  exact ⟨e, he, by simpa using hlt⟩

/-- Without a tolerance, the post-solve phase of a rotation-active
combination returns a result for both valid output modes. -/
theorem afterSolve_none_ok (src tgt : List Pt3) (doTranslate : Bool)
    (doScale : ℤ) (out : String) (x : List ℝ)
    (hout : out = "params" ∨ out = "trans") :
    ∃ v, afterSolve src tgt true doTranslate doScale none out x = .ok v := by
  rcases hout with h | h <;> subst h
  · exact ⟨.params x, by simp [afterSolve, outResult]⟩
  · obtain ⟨M, hM⟩ := transFromParams_rotate_isOk doTranslate doScale x
    exact ⟨.trans M, by simp [afterSolve, hM, outResult]⟩

/-- C3: for every solver, supported combination and equal-shaped point
sets: if a tolerance is supplied and some per-point residual norm of the
fitted transform exceeds it, the call fails with a ToleranceExceeded
error carrying the residual vector; if no tolerance is supplied, the same
inputs return a result without any residual check. -/
theorem fitMatchedPoints_tolerance_gate (solver : (List ℝ → List ℝ) → List ℝ → List ℝ)
    (src tgt : List Pt3) (doRotate doTranslate : Bool) (doScale : ℤ)
    (x0Opt : Option (List ℝ)) (out : String) (tolv : ℝ)
    (hsupp : supportedCombo (doRotate, doTranslate, doScale))
    (hshape : src.length = tgt.length)
    (hout : out = "params" ∨ out = "trans") :
    (∀ M, transFromParams (doRotate, doTranslate, doScale)
        (solver (errFunOf doRotate doTranslate doScale src tgt)
          (x0Opt.getD (x0Default doRotate doTranslate doScale))) = .ok M →
      (∃ e ∈ residualNorms M src tgt, tolv < e) →
      fitMatchedPoints solver src tgt doRotate doTranslate doScale (some tolv) x0Opt out =
        .error (.toleranceExceeded (residualNorms M src tgt))) ∧
    (∃ v, fitMatchedPoints solver src tgt doRotate doTranslate doScale none x0Opt out =
      .ok v) := by
  have hrot : doRotate = true := by
    rcases hsupp with h | h | h | h <;>
      (simp only [Prod.mk.injEq] at h; exact h.1)
  constructor
  · intro M hM hex
    rw [fitMatchedPoints_supported_eq solver src tgt doRotate doTranslate doScale
      (some tolv) x0Opt out hsupp hshape]
    exact afterSolve_tol_exceeded _ _ _ _ _ _ _ _ _ hM hex
  · rw [fitMatchedPoints_supported_eq solver src tgt doRotate doTranslate doScale
      none x0Opt out hsupp hshape]
    subst hrot
    exact afterSolve_none_ok _ _ _ _ _ _ hout

/-- Witness for `fitMatchedPoints_tolerance_gate`: an abstract solver
returning zero rotation, a source point at the origin and a target at
distance 1, with tolerance 1/2. -/
theorem fitMatchedPoints_tolerance_gate_witness :
    fitMatchedPoints (fun _ _ => [0, 0, 0]) [((0:ℝ), 0, 0)] [((1:ℝ), 0, 0)]
        true false 0 (some (1/2)) none "params" =
      .error (.toleranceExceeded
        (residualNorms (rotation 0 0 0) [((0:ℝ), 0, 0)] [((1:ℝ), 0, 0)])) ∧
    ∃ v, fitMatchedPoints (fun _ _ => [0, 0, 0]) [((0:ℝ), 0, 0)] [((1:ℝ), 0, 0)]
        true false 0 none none "params" = .ok v := by
  have happ : applyHom4 (rotation 0 0 0) ((0:ℝ), 0, 0) = ((0:ℝ), 0, 0) := by
    simp [applyHom4, rotation, homVec, Matrix.mulVec, Matrix.dotProduct,
      Fin.sum_univ_four, Matrix.cons_val_two, Matrix.cons_val_three]
  have hval : norm3 (applyHom4 (rotation 0 0 0) ((0:ℝ), 0, 0) - ((1:ℝ), 0, 0)) = 1 := by
    rw [happ]
    have hsub : (((0:ℝ), (0:ℝ), (0:ℝ)) - ((1:ℝ), (0:ℝ), (0:ℝ)))
        = ((-1 : ℝ), (0:ℝ), (0:ℝ)) := by
      simp [Prod.ext_iff]
    rw [hsub]
    simp [norm3]
  have hmem : norm3 (applyHom4 (rotation 0 0 0) ((0:ℝ), 0, 0) - ((1:ℝ), 0, 0)) ∈
      residualNorms (rotation 0 0 0) [((0:ℝ), 0, 0)] [((1:ℝ), 0, 0)] := by
    simp [residualNorms]
  refine ⟨?_, ?_⟩
  · exact (fitMatchedPoints_tolerance_gate (fun _ _ => [0, 0, 0])
      [((0:ℝ), 0, 0)] [((1:ℝ), 0, 0)] true false 0 none "params" (1/2)
      (Or.inl rfl) rfl (Or.inl rfl)).1 (rotation 0 0 0) rfl
      ⟨norm3 (applyHom4 (rotation 0 0 0) ((0:ℝ), 0, 0) - ((1:ℝ), 0, 0)), hmem,
        by rw [hval]; norm_num⟩
  · exact (fitMatchedPoints_tolerance_gate (fun _ _ => [0, 0, 0])
      [((0:ℝ), 0, 0)] [((1:ℝ), 0, 0)] true false 0 none "params" (1/2)
      (Or.inl rfl) rfl (Or.inl rfl)).2

/-- A homogeneous rotation times an isotropic scaling acts as the
elementwise-scaled 3×3 rotation used by the residual function of the
(True, False, 1) combination. -/
theorem applyHom4_rot_scaling (a b c s : ℝ) (p : Pt3) :
    applyHom4 (rotation a b c * scaling s s s) p =
      mulVec3 (s • rotation3d a b c) p := by
  rw [applyHom4_mul _ _ (scaling_bottom s s s), applyHom4_scaling, applyHom4_rotation]
  simp only [mulVec3, vec3, Matrix.mulVec, Matrix.dotProduct, Fin.sum_univ_three,
    Matrix.smul_apply, smul_eq_mul, Prod.mk.injEq, Matrix.cons_val_zero,
    Matrix.cons_val_one, Matrix.head_cons, Matrix.cons_val_two,
    Matrix.tail_cons]
  refine ⟨by ring, by ring, by ring⟩

/-- C10: for each of the four supported combinations, the residual
function handed to the solver computes exactly the residual of the matrix
that `_trans_from_params` produces from the same parameter vector, so the
`out='trans'` result and the tolerance gate use precisely the transform
whose residuals the solver minimized. -/
theorem errFun_matches_transFromParams (doRotate doTranslate : Bool) (doScale : ℤ)
    (src tgt : List Pt3) (x : List ℝ)
    (hsupp : supportedCombo (doRotate, doTranslate, doScale))
    (M : Matrix (Fin 4) (Fin 4) ℝ)
    (hM : transFromParams (doRotate, doTranslate, doScale) x = .ok M) :
    errFunOf doRotate doTranslate doScale src tgt x =
      flatten3 (List.zipWith (fun tp sp => tp - applyHom4 M sp) tgt src) := by
  rcases hsupp with h | h | h | h <;>
    (simp only [Prod.mk.injEq] at h
     obtain ⟨h1, h2, h3⟩ := h
     subst h1; subst h2; subst h3)
  · have hM' : transFromParams (true, false, 0) x =
        .ok (rotation (x.getD 0 0) (x.getD 1 0) (x.getD 2 0)) := rfl
    rw [hM'] at hM
    simp only [Except.ok.injEq] at hM
    subst hM
    simp only [errFunOf]
    rw [show (fun (tp sp : Pt3) => tp -
          applyHom4 (rotation (x.getD 0 0) (x.getD 1 0) (x.getD 2 0)) sp)
        = fun (tp sp : Pt3) => tp -
          mulVec3 (rotation3d (x.getD 0 0) (x.getD 1 0) (x.getD 2 0)) sp
      from by funext tp sp; rw [applyHom4_rotation]]
  · have hM' : transFromParams (true, false, 1) x =
        .ok (rotation (x.getD 0 0) (x.getD 1 0) (x.getD 2 0) *
          scaling (x.getD 3 0) (x.getD 3 0) (x.getD 3 0)) := rfl
    rw [hM'] at hM
    simp only [Except.ok.injEq] at hM
    subst hM
    simp only [errFunOf]
    rw [show (fun (tp sp : Pt3) => tp -
          applyHom4 (rotation (x.getD 0 0) (x.getD 1 0) (x.getD 2 0) *
            scaling (x.getD 3 0) (x.getD 3 0) (x.getD 3 0)) sp)
        = fun (tp sp : Pt3) => tp -
          mulVec3 (x.getD 3 0 • rotation3d (x.getD 0 0) (x.getD 1 0) (x.getD 2 0)) sp
      from by funext tp sp; rw [applyHom4_rot_scaling]]
  · have hM' : transFromParams (true, true, 0) x =
        .ok (translation (x.getD 3 0) (x.getD 4 0) (x.getD 5 0) *
          rotation (x.getD 0 0) (x.getD 1 0) (x.getD 2 0)) := rfl
    rw [hM'] at hM
    simp only [Except.ok.injEq] at hM
    subst hM
    rfl
  · have hM' : transFromParams (true, true, 1) x =
        .ok (translation (x.getD 3 0) (x.getD 4 0) (x.getD 5 0) *
          rotation (x.getD 0 0) (x.getD 1 0) (x.getD 2 0) *
          scaling (x.getD 6 0) (x.getD 6 0) (x.getD 6 0)) := rfl
    rw [hM'] at hM
    simp only [Except.ok.injEq] at hM
    subst hM
    rfl

/-- C6: for the landmarks nasion = (0, 1, 0), lpa = (-1, 0, 0),
rpa = (1, 0, 0) the head-frame construction succeeds, the rotation part
of the returned matrix maps (1, 0, 0) to (1, 0, 0) (its first column is
(1, 0, 0)), and its translation column is (0, 0, 0). -/
theorem getRasToNeuromag_concrete :
    ∃ M, getRasToNeuromagTrans [0, 1, 0] [-1, 0, 0] [1, 0, 0] = .ok M ∧
      M 0 0 = 1 ∧ M 1 0 = 0 ∧ M 2 0 = 0 ∧
      M 0 3 = 0 ∧ M 1 3 = 0 ∧ M 2 3 = 0 := by
  have hs4 : Real.sqrt 4 = 2 := by
    rw [show (4 : ℝ) = 2 ^ 2 by norm_num, Real.sqrt_sq (by norm_num : (0:ℝ) ≤ 2)]
  unfold getRasToNeuromagTrans
  rw [if_pos (by simp)]
  refine ⟨_, rfl, ?_, ?_, ?_, ?_, ?_, ?_⟩ <;>
    norm_num [toPt3, norm3, dot3, cross3, smul3, translation, Matrix.mul_apply,
      Fin.sum_univ_four, Matrix.cons_val_two, Matrix.cons_val_three, hs4,
      Real.sqrt_one, Matrix.vecHead, Matrix.vecTail, Function.comp]

/-- Witness for `errFun_matches_transFromParams` at the
rotate-and-translate combination with identity parameters. -/
theorem errFun_matches_transFromParams_witness :
    errFunOf true true 0 [((1:ℝ), 2, 3)] [((4:ℝ), 5, 6)] [0, 0, 0, 0, 0, 0] =
      flatten3 (List.zipWith
        (fun tp sp => tp - applyHom4 (translation 0 0 0 * rotation 0 0 0) sp)
        [((4:ℝ), 5, 6)] [((1:ℝ), 2, 3)]) :=
  errFun_matches_transFromParams true true 0 [((1:ℝ), 2, 3)] [((4:ℝ), 5, 6)]
    [0, 0, 0, 0, 0, 0] (Or.inr (Or.inr (Or.inl rfl)))
    (translation 0 0 0 * rotation 0 0 0) rfl

end Coreg
